import Mathlib

/-!
Verification of the wifi-tracker repository against its specification.

The repository ships a React dashboard (`src/components/...`), two README
documents describing the Python tracking engine, and build configuration.
The Python engine itself (scan parser, signal smoother, distance estimator,
device registry, staleness reaper, settings handler) is not part of the
sources; definitions for those components are modelled from the
specification, as marked in their doc comments.  Frontend functions are
translated directly from the TypeScript sources.
-/

namespace WifiTracker

/-! ## Distance estimator -/

/-- Modelled from the spec: the distance estimator of the Python tracking
engine is absent from the sources; its formula is documented identically in
the spec (§4.4) and in the repository README ("Distance Calculation"):
`distance = 10 ^ ((reference_power - RSSI) / (10 * path_loss_exponent))`. -/
noncomputable def estimate (smoothed_rssi reference_power path_loss_exponent : ℝ) : ℝ :=
  (10 : ℝ) ^ ((reference_power - smoothed_rssi) / (10 * path_loss_exponent))

/-! ## Signal-strength classification (dashboard views) -/

/-- Function `getSignalStrength` from `src/components/DeviceList.tsx`. -/
def getSignalStrength (rssi : ℤ) : String :=
  if rssi ≥ -50 then "Excellent"
  else if rssi ≥ -60 then "Good"
  else if rssi ≥ -70 then "Fair"
  else "Poor"

/-- Function `getSignalColor` from `src/components/DeviceList.tsx` (text colors). -/
def DeviceList.getSignalColor (rssi : ℤ) : String :=
  if rssi ≥ -50 then "text-green-500"
  else if rssi ≥ -60 then "text-blue-500"
  else if rssi ≥ -70 then "text-yellow-500"
  else "text-red-500"

/-- Function `getSignalColor` from `src/components/device-map/DeviceMarker.tsx`
(background colors). -/
def DeviceMarker.getSignalColor (rssi : ℤ) : String :=
  if rssi ≥ -50 then "bg-green-500"
  else if rssi ≥ -60 then "bg-blue-500"
  else if rssi ≥ -70 then "bg-yellow-500"
  else "bg-red-500"

/-- Function `getSignalColor` from the extended DeviceMap view (unnamed source file,
`const getSignalColor` inside the map component). -/
def DeviceMapView.getSignalColor (rssi : ℤ) : String :=
  if rssi ≥ -50 then "bg-green-500"
  else if rssi ≥ -60 then "bg-blue-500"
  else if rssi ≥ -70 then "bg-yellow-500"
  else "bg-red-500"

/-! ## Sliding windows: Analytics history and the RSSI smoother -/

/-- A historical data point of the Analytics view
(`interface HistoricalDataPoint` in `src/components/Analytics.tsx`). -/
structure HistPoint where
  timestamp : String
  deviceCount : ℚ
  averageDistance : ℚ
deriving DecidableEq

/-- One step of the Analytics historical-data update
(`setHistoricalData` in `src/components/Analytics.tsx`): append the new
point and, when the length exceeds 20, keep only the last 20 entries
(`newData.slice(-20)`). -/
def pushHistoricalPoint (prev : List HistPoint) (p : HistPoint) : List HistPoint :=
  let newData := prev ++ [p]
  if newData.length > 20 then newData.drop (newData.length - 20) else newData

/-- The stored historical data after a sequence of fetch cycles, each
appending one data point, starting from the initial empty state. -/
def historicalDataAfter (ps : List HistPoint) : List HistPoint :=
  ps.foldl pushHistoricalPoint []

/-- Modelled from the spec: the signal smoother of the Python tracking
engine is absent from the sources; §4.3 gives its contract
`update(history, new_rssi) -> (new_history, smoothed_value)`: append the
new sample, drop the oldest when the length exceeds the capacity N, and
return the arithmetic mean of the resulting history. -/
def Smoother.update (N : ℕ) (history : List ℚ) (new_rssi : ℚ) : List ℚ × ℚ :=
  let h1 := history ++ [new_rssi]
  let h2 := if N < h1.length then h1.tail else h1
  (h2, h2.sum / (h2.length : ℚ))

/-- Feed a sequence of RSSI samples through the smoother, starting from the
empty history; returns the final history and the last smoothed value. -/
def Smoother.run (N : ℕ) (samples : List ℚ) : List ℚ × ℚ :=
  samples.foldl (fun st r => Smoother.update N st.1 r) ([], 0)

/-! ## Device registry and staleness reaper -/

/-- Modelled from the spec: the `DeviceState` record of the registry (§3) — the Python
engine holding it is absent from the sources.  Timestamps are integers,
numeric values rationals. -/
structure DeviceState where
  mac_address : String
  rssi_history : List ℤ
  smoothed_rssi : ℚ
  distance_m : ℚ
  hostname : Option String
  ip_address : Option String
  manufacturer : Option String
  device_type : String
  first_seen : ℤ
  last_seen : ℤ
deriving DecidableEq

/-- The mapping of MAC address to device state (§3). -/
abbrev Registry := List (String × DeviceState)

/-- Modelled from the spec: `snapshot()` returns a read-only copy of all
device states (§4.5); in this embedding the copy is the value itself. -/
def Registry.snapshot (reg : Registry) : List (String × DeviceState) := reg

/-- Modelled from the spec: the staleness reaper operation
`sweep(now, threshold) -> count_evicted` (§4.6) — absent from the sources.
It removes every `DeviceState` with `now - last_seen > threshold` and
returns the surviving registry together with the number evicted. -/
def Registry.sweep (reg : Registry) (now threshold : ℤ) : Registry × ℕ :=
  let kept := reg.filter (fun e => decide (now - e.2.last_seen ≤ threshold))
  (kept, reg.length - kept.length)

/-! ## Scan-record parser: duplicate-MAC collapse -/

/-- Look up the RSSI stored for a MAC in an association list of
(mac, rssi) records. -/
def findMac (l : List (String × ℤ)) (m : String) : Option ℤ :=
  match l with
  | [] => none
  | p :: rest => if p.1 = m then some p.2 else findMac rest m

/-- Modelled from the spec: the scan-output parser is absent from the
sources; §4.1 requires that within one parse pass duplicate lines for the
same MAC collapse to a single record keeping the strongest RSSI.  Records
already validated (MAC pattern and dBm range) are combined in a single
pass: a record whose MAC was already kept strengthens the stored RSSI to
the maximum of the two, otherwise the record is added. -/
def collapseByMac : List (String × ℤ) → List (String × ℤ)
  | [] => []
  | (m, v) :: rest =>
      let tl := collapseByMac rest
      if (findMac tl m).isSome then
        tl.map (fun p => if p.1 = m then (p.1, max p.2 v) else p)
      else (m, v) :: tl

/-! ## Device-type icon rules (device-map view) -/

/-- JavaScript `String.prototype.includes` on explicit character lists. -/
def listIncludes (h n : List Char) : Bool :=
  match h with
  | [] => n.isEmpty
  | _ :: cs => n.isPrefixOf h || listIncludes cs n

/-- JavaScript `String.prototype.includes` on strings. -/
def strIncludes (h n : String) : Bool := listIncludes h.data n.data

/-- JavaScript `String.prototype.toLowerCase`, character by character. -/
def strToLower (s : String) : String := ⟨s.data.map Char.toLower⟩

/-- The device record consumed by the device-map components
(`src/components/device-map` types, `interface Device`). -/
structure Device where
  mac_address : String
  distance : ℚ
  device_type : String
  manufacturer : Option String
  hostname : Option String
  rssi : ℤ
deriving DecidableEq

/-- The icons `getDeviceIcon` can render (lucide components in
`src/components/device-map/DeviceMarker.tsx`). -/
inductive Icon where
  | smartphone
  | tablet
  | laptop
  | tv
  | gamepad
  | speaker
  | router
  | hardDrive
deriving DecidableEq

/-- JavaScript `device.manufacturer?.toLowerCase().includes(n)`: false when
the manufacturer is null. -/
def manuIncludes (d : Device) (n : String) : Bool :=
  match d.manufacturer with
  | none => false
  | some s => strIncludes (strToLower s) n

/-- Function `getDeviceIcon` from `src/components/device-map/DeviceMarker.tsx`,
translated branch for branch. -/
def getDeviceIcon (device : Device) : Icon :=
  let type := strToLower device.device_type
  let name := (device.hostname.map strToLower).getD ""
  if strIncludes type "iphone" || strIncludes type "android phone" then .smartphone
  else if strIncludes type "ipad" then .tablet
  else if strIncludes type "macbook" || strIncludes type "laptop" then .laptop
  else if strIncludes type "tv" || strIncludes name "tv" then .tv
  else if strIncludes type "gaming" || manuIncludes device "playstation" then .gamepad
  else if strIncludes type "speaker" then .speaker
  else if strIncludes type "network" || manuIncludes device "ubee" then .router
  else .hardDrive

/-- The same checks as `getDeviceIcon`, laid out as an ordered table of
(predicate, icon) rules. -/
def deviceIconRules : List ((Device → Bool) × Icon) :=
  [ (fun d => strIncludes (strToLower d.device_type) "iphone" ||
      strIncludes (strToLower d.device_type) "android phone", .smartphone),
    (fun d => strIncludes (strToLower d.device_type) "ipad", .tablet),
    (fun d => strIncludes (strToLower d.device_type) "macbook" ||
      strIncludes (strToLower d.device_type) "laptop", .laptop),
    (fun d => strIncludes (strToLower d.device_type) "tv" ||
      strIncludes ((d.hostname.map strToLower).getD "") "tv", .tv),
    (fun d => strIncludes (strToLower d.device_type) "gaming" ||
      manuIncludes d "playstation", .gamepad),
    (fun d => strIncludes (strToLower d.device_type) "speaker", .speaker),
    (fun d => strIncludes (strToLower d.device_type) "network" ||
      manuIncludes d "ubee", .router) ]

/-- Evaluate an ordered rule table top-down: the first rule whose predicate
holds decides the result; when none matches, the default is returned. -/
def firstMatch (rules : List ((Device → Bool) × Icon)) (dflt : Icon) (d : Device) : Icon :=
  match rules with
  | [] => dflt
  | r :: rs => if r.1 d then r.2 else firstMatch rs dflt d

/-! ## JSON payloads and their consumers -/

/-- A JSON value, as exchanged on the device-list endpoint. -/
inductive Json where
  | null
  | bool (b : Bool)
  | num (q : ℚ)
  | str (s : String)
  | arr (elems : List Json)
  | obj (fields : List (String × Json))

/-- Look up a member of a JSON object field list. -/
def findField : List (String × Json) → String → Option Json
  | [], _ => none
  | p :: rest, k => if p.1 = k then some p.2 else findField rest k

/-- JavaScript member access `j.k`: `none` models `undefined`. -/
def jsField (j : Json) (k : String) : Option Json :=
  match j with
  | .obj fields => findField fields k
  | _ => none

/-- JavaScript truthiness of a JSON value. -/
def jsTruthy : Json → Bool
  | .null => false
  | .bool b => b
  | .num q => decide (q ≠ 0)
  | .str s => decide (s ≠ "")
  | .arr _ => true
  | .obj _ => true

/-- JavaScript `Object.entries`: the own enumerable entries of an object in
order; an array yields its elements keyed by index. -/
def jsObjectEntries : Json → List (String × Json)
  | .obj fields => fields
  | .arr elems => elems.enum.map (fun p => (toString p.1, p.2))
  | _ => []

/-- The `distance` member of a device object, when it is a number. -/
def jsDistance (j : Json) : Option ℚ :=
  match jsField j "distance" with
  | some (Json.num q) => some q
  | _ => none

/-- The average-distance computation of the Analytics view
(`data.devices.reduce((acc, dev) => acc + dev.distance, 0) / data.devices.length || 0`):
a missing or non-numeric distance, or an empty array, collapses the result
to 0 through the trailing `|| 0`. -/
def Analytics.averageDistance (devs : List Json) : ℚ :=
  if devs.all (fun d => (jsDistance d).isSome) && !devs.isEmpty then
    (devs.map (fun d => (jsDistance d).getD 0)).sum / (devs.length : ℚ)
  else 0

/-- The historical data point one Analytics fetch cycle computes from the
response body (`src/components/Analytics.tsx`): the pair of
`data.devices.length` and the average distance.  Both `.length` and
`.reduce` require `devices` to be an array; on any other value (a plain
object in particular, whose `.reduce` is not a function) the update throws
and the surrounding try/catch discards the cycle, modelled as `none`. -/
def Analytics.histPointOfPayload (data : Json) : Option (ℚ × ℚ) :=
  match jsField data "devices" with
  | some (Json.arr devs) => some ((devs.length : ℚ), Analytics.averageDistance devs)
  | _ => none

/-- The device entries the DeviceList view renders from a response body
(`src/components/DeviceList.tsx`): `data.devices` is stored when truthy and
the table rows are `Object.entries` of the stored value. -/
def DeviceList.entriesOfPayload (data : Json) : List (String × Json) :=
  match jsField data "devices" with
  | some d => if jsTruthy d then jsObjectEntries d else []
  | none => []

/-- A device-list response body carrying the given `devices` member. -/
def devicesPayload (d : Json) : Json := .obj [("devices", d)]

/-- A concrete device object with the eight documented fields. -/
def sampleDevice : Json :=
  .obj [("mac_address", .str "00:11:22:33:44:55"), ("distance", .num 2),
    ("device_type", .str "unknown"), ("manufacturer", .null),
    ("hostname", .null), ("ip_address", .str "192.168.1.2"),
    ("rssi", .num (-65)), ("last_seen", .str "2023-12-25T12:34:56")]

/-- The wire shape documented in the spec: `devices` as an object keyed by MAC address. -/
def mappingPayload : Json :=
  devicesPayload (.obj [("00:11:22:33:44:55", sampleDevice)])

/-- The wire shape documented in the README: `devices` as an array. -/
def arrayPayload : Json := devicesPayload (.arr [sampleDevice])

/-! ## Settings surface -/

/-- The settings record exchanged with the settings endpoint by
`src/components/Settings.tsx` (`interface Settings`); defaults
`scan_interval = 2`, `distance_threshold = 10`. -/
structure Settings where
  scan_interval : ℚ
  distance_threshold : ℚ
deriving DecidableEq

/-- The defaults of the settings view. -/
def defaultSettings : Settings := ⟨2, 10⟩

/-- The option names the settings form submits to the settings endpoint
(the two fields of `interface Settings` in `src/components/Settings.tsx`). -/
def settingsOptionNames : List String := ["scan_interval", "distance_threshold"]

/-- The five option names the specification (§6) lists as recognized. -/
def claimedOptionNames : List String :=
  ["scan_interval_seconds", "staleness_threshold_seconds", "reference_power_dbm",
    "path_loss_exponent", "rssi_history_capacity"]

/-- Validity of a settings record, with the ranges documented on the form
inputs in `src/components/Settings.tsx`: scan interval 1-60 seconds,
distance threshold 1-50 meters. -/
def validSettings (s : Settings) : Bool :=
  (decide (1 ≤ s.scan_interval) && decide (s.scan_interval ≤ 60)) &&
    (decide (1 ≤ s.distance_threshold) && decide (s.distance_threshold ≤ 50))

/-- Modelled from the spec: the server-side settings update handler is
absent from the sources; §7 requires configuration errors to be rejected at
the config-update boundary with the prior valid configuration remaining in
effect.  Returns the configuration in effect afterwards and whether the
update was accepted. -/
def updateConfig (current proposed : Settings) : Settings × Bool :=
  if validSettings proposed then (proposed, true) else (current, false)

end WifiTracker

namespace WifiTracker

/-! ### Sliding-window helper lemmas -/

/-- A fold of a bounded-append step from the empty list keeps exactly the
last `cap` elements: any step that agrees with dropping down to the last
`cap` elements on histories of length at most `cap` folds to the suffix of
the inputs of length at most `cap`. -/
theorem foldl_window_eq {α : Type} (cap : ℕ) (step : List α → α → List α)
    (hstep : ∀ (l : List α) (a : α), l.length ≤ cap →
      step l a = (l ++ [a]).drop (l.length + 1 - cap)) :
    ∀ ps : List α, ps.foldl step [] = ps.drop (ps.length - cap) := by
  intro ps
  induction ps using List.reverseRecOn with
  | nil => simp
  | append_singleton ps p ih =>
      have hlen : (ps.drop (ps.length - cap)).length ≤ cap := by
        simp [List.length_drop]; omega
      rw [List.foldl_append, ih, List.foldl_cons, List.foldl_nil,
        hstep _ _ hlen]
      rcases le_or_lt ps.length cap with hle | hgt
      · have h1 : ps.length - cap = 0 := by omega
        have h2 : (ps.drop (ps.length - cap)).length + 1 - cap =
            (ps ++ [p]).length - cap := by
          simp only [List.length_drop, List.length_append, List.length_singleton]
          omega
        rw [h2, h1, List.drop_zero]
      · have h2 : (ps.drop (ps.length - cap)).length + 1 - cap = 1 := by
          simp only [List.length_drop]
          omega
        rw [h2, ← List.drop_append_of_le_length
          (by omega : ps.length - cap ≤ ps.length), List.drop_drop]
        congr 1
        simp only [List.length_append, List.length_singleton]
        omega

end WifiTracker

namespace WifiTracker

/-- C2: when the smoothed RSSI equals the reference power, the estimated
distance is exactly one meter, for every reference power and every positive
path-loss exponent. -/
theorem estimate_at_reference_power (reference_power k : ℝ) (hk : 0 < k) :
    estimate reference_power reference_power k = 1 := by
  simp [estimate]

/-- Witness for `estimate_at_reference_power` at the default parameters
(reference power -50 dBm, path-loss exponent 3). -/
theorem estimate_at_reference_power_witness :
    (0 : ℝ) < 3 ∧ estimate (-50) (-50) 3 = 1 :=
  ⟨by norm_num, estimate_at_reference_power (-50) 3 (by norm_num)⟩

/-- C3: for fixed reference power and fixed positive path-loss exponent, the
estimated distance is monotonically non-increasing in the RSSI over the valid
band [-100, 0]. -/
theorem estimate_antitone_in_rssi (reference_power k r1 r2 : ℝ) (hk : 0 < k)
    (hlo : -100 ≤ r1) (hhi : r2 ≤ 0) (h12 : r1 ≤ r2) :
    estimate r2 reference_power k ≤ estimate r1 reference_power k := by
  unfold estimate
  rw [Real.rpow_le_rpow_left_iff (by norm_num : (1 : ℝ) < 10)]
  have h10k : (0 : ℝ) < 10 * k := by positivity
  rw [div_le_div_iff_of_pos_right h10k]
  linarith

/-- Witness for `estimate_antitone_in_rssi` at RSSI -70 ≤ -60 with the
default model parameters. -/
theorem estimate_antitone_in_rssi_witness :
    (0 : ℝ) < 3 ∧ (-100 : ℝ) ≤ -70 ∧ (-60 : ℝ) ≤ 0 ∧ (-70 : ℝ) ≤ -60 ∧
      estimate (-60) (-50) 3 ≤ estimate (-70) (-50) 3 :=
  ⟨by norm_num, by norm_num, by norm_num, by norm_num,
    estimate_antitone_in_rssi (-50) 3 (-70) (-60) (by norm_num) (by norm_num)
      (by norm_num) (by norm_num)⟩

/-- C9: the dashboard signal classification is total and splits the RSSI
axis into exactly four bands with identical thresholds in every view:
Excellent/green exactly when -50 ≤ rssi, Good/blue exactly when
-60 ≤ rssi < -50, Fair/yellow exactly when -70 ≤ rssi < -60, and Poor/red
exactly when rssi < -70. -/
theorem signal_bands_partition (r : ℤ) :
    ((getSignalStrength r = "Excellent" ∧
        DeviceList.getSignalColor r = "text-green-500" ∧
        DeviceMarker.getSignalColor r = "bg-green-500" ∧
        DeviceMapView.getSignalColor r = "bg-green-500") ↔ -50 ≤ r) ∧
    ((getSignalStrength r = "Good" ∧
        DeviceList.getSignalColor r = "text-blue-500" ∧
        DeviceMarker.getSignalColor r = "bg-blue-500" ∧
        DeviceMapView.getSignalColor r = "bg-blue-500") ↔ -60 ≤ r ∧ r < -50) ∧
    ((getSignalStrength r = "Fair" ∧
        DeviceList.getSignalColor r = "text-yellow-500" ∧
        DeviceMarker.getSignalColor r = "bg-yellow-500" ∧
        DeviceMapView.getSignalColor r = "bg-yellow-500") ↔ -70 ≤ r ∧ r < -60) ∧
    ((getSignalStrength r = "Poor" ∧
        DeviceList.getSignalColor r = "text-red-500" ∧
        DeviceMarker.getSignalColor r = "bg-red-500" ∧
        DeviceMapView.getSignalColor r = "bg-red-500") ↔ r < -70) := by
  unfold getSignalStrength DeviceList.getSignalColor DeviceMarker.getSignalColor
    DeviceMapView.getSignalColor
  split_ifs with h1 h2 h3 <;> refine ⟨?_, ?_, ?_, ?_⟩ <;> simp <;> omega

/-- One Analytics history step always keeps the suffix of length at most 20
of the appended list. -/
theorem pushHistoricalPoint_eq_window (l : List HistPoint) (p : HistPoint) :
    pushHistoricalPoint l p = (l ++ [p]).drop (l.length + 1 - 20) := by
  unfold pushHistoricalPoint
  simp only [List.length_append, List.length_singleton]
  split_ifs with h
  · rfl
  · have h0 : l.length + 1 - 20 = 0 := by omega
    rw [h0, List.drop_zero]

/-- C10: after every Analytics fetch cycle the stored historical data is the
suffix of the appended data points of length at most 20: it holds the most
recently appended points in insertion order and drops the oldest first. -/
theorem historicalData_window (ps : List HistPoint) :
    historicalDataAfter ps = ps.drop (ps.length - 20) ∧
    (historicalDataAfter ps).length ≤ 20 := by
  have h : historicalDataAfter ps = ps.drop (ps.length - 20) :=
    foldl_window_eq 20 pushHistoricalPoint
      (fun l p _ => pushHistoricalPoint_eq_window l p) ps
  refine ⟨h, ?_⟩
  rw [h]
  simp only [List.length_drop]
  omega

/-- Under the capacity bound, one smoother step keeps the suffix of length
at most N of the appended history. -/
theorem smoother_history_step (N : ℕ) (l : List ℚ) (r : ℚ) (hl : l.length ≤ N) :
    (Smoother.update N l r).1 = (l ++ [r]).drop (l.length + 1 - N) := by
  unfold Smoother.update
  simp only [List.length_append, List.length_singleton]
  split_ifs with h
  · have h1 : l.length + 1 - N = 1 := by omega
    rw [h1, ← List.drop_one]
  · have h0 : l.length + 1 - N = 0 := by omega
    rw [h0, List.drop_zero]

/-- The history component of `Smoother.run` is the fold of the history
component of `Smoother.update`. -/
theorem smoother_run_fst (N : ℕ) (samples : List ℚ) :
    ∀ st : List ℚ × ℚ,
      (samples.foldl (fun st r => Smoother.update N st.1 r) st).1 =
        samples.foldl (fun h r => (Smoother.update N h r).1) st.1 := by
  induction samples with
  | nil => intro st; rfl
  | cons s rest ih =>
      intro st
      simp only [List.foldl_cons]
      exact ih _

/-- The final smoother history is exactly the most recent samples, at most
N of them. -/
theorem smoother_run_history (N : ℕ) (samples : List ℚ) :
    (Smoother.run N samples).1 = samples.drop (samples.length - N) := by
  rw [Smoother.run, smoother_run_fst]
  exact foldl_window_eq N _ (fun l r hl => smoother_history_step N l r hl) samples

/-- The smoothed value returned by one smoother step is the mean of the
history it returns. -/
theorem smoother_update_snd (N : ℕ) (h : List ℚ) (r : ℚ) :
    (Smoother.update N h r).2 =
      (Smoother.update N h r).1.sum / ((Smoother.update N h r).1.length : ℚ) := rfl

/-- C4: with history capacity N ≥ 1, once more than N samples have been fed
the smoothed value is the arithmetic mean of exactly the most recent N
samples (older samples have no effect), and the first sample fed to the
empty history smooths to itself. -/
theorem smoother_window_mean (N : ℕ) (hN : 1 ≤ N) (samples : List ℚ)
    (hlen : N < samples.length) :
    (Smoother.run N samples).2 =
      (samples.drop (samples.length - N)).sum / (N : ℚ) ∧
    (samples.drop (samples.length - N)).length = N ∧
    ∀ r : ℚ, (Smoother.run N [r]).2 = r := by
  have hhist := smoother_run_history N samples
  have hlen2 : (samples.drop (samples.length - N)).length = N := by
    simp only [List.length_drop]
    omega
  refine ⟨?_, hlen2, ?_⟩
  · rcases List.eq_nil_or_concat samples with rfl | ⟨ps, p, rfl⟩
    · simp at hlen
    · simp only [List.concat_eq_append] at hhist hlen2 ⊢
      have hdecomp : Smoother.run N (ps ++ [p]) =
          Smoother.update N (Smoother.run N ps).1 p := by
        simp only [Smoother.run, List.foldl_append, List.foldl_cons, List.foldl_nil]
      rw [hdecomp, smoother_update_snd, ← hdecomp, hhist, hlen2]
  · intro r
    have hone : Smoother.run N [r] = Smoother.update N [] r := rfl
    rw [hone]
    simp only [Smoother.update, List.nil_append, List.length_singleton]
    rw [if_neg (by omega : ¬ N < 1)]
    simp

/-- Witness for `smoother_window_mean`: capacity 2 with the three samples
-50, -52, -48; the smoothed value is the mean -50 of the last two. -/
theorem smoother_window_mean_witness :
    1 ≤ 2 ∧ 2 < ([(-50 : ℚ), -52, -48] : List ℚ).length ∧
      (Smoother.run 2 [(-50 : ℚ), -52, -48]).2 =
        (([(-50 : ℚ), -52, -48] : List ℚ).drop
          (([(-50 : ℚ), -52, -48] : List ℚ).length - 2)).sum / (2 : ℚ) :=
  ⟨by norm_num, by decide,
    (smoother_window_mean 2 (by norm_num) [(-50 : ℚ), -52, -48] (by decide)).1⟩

/-- C5: a sweep removes exactly the stale entries: a device state appears in
the snapshot after `sweep now threshold` exactly when it was in the registry
before the sweep and satisfies `now - last_seen ≤ threshold`; surviving
entries are unchanged and every stale entry is absent. -/
theorem sweep_evicts_exactly_stale (reg : Registry) (now threshold : ℤ)
    (mac : String) (st : DeviceState) :
    (mac, st) ∈ Registry.snapshot (Registry.sweep reg now threshold).1 ↔
      (mac, st) ∈ Registry.snapshot reg ∧ now - st.last_seen ≤ threshold := by
  simp [Registry.sweep, Registry.snapshot, List.mem_filter]

/-- A successful MAC lookup finds a record actually in the list. -/
theorem findMac_mem (l : List (String × ℤ)) (m : String) (u : ℤ)
    (h : findMac l m = some u) : (m, u) ∈ l := by
  induction l with
  | nil => simp [findMac] at h
  | cons p rest ih =>
      rw [findMac] at h
      split_ifs at h with hp
      · injection h with h2
        subst h2
        subst hp
        exact List.mem_cons_self _ _
      · exact List.mem_cons_of_mem _ (ih h)

/-- A failed MAC lookup means no record for that MAC is in the list. -/
theorem findMac_none_not_mem (l : List (String × ℤ)) (m : String)
    (h : findMac l m = none) : ∀ v, (m, v) ∉ l := by
  induction l with
  | nil => simp
  | cons p rest ih =>
      rw [findMac] at h
      intro v hv
      by_cases hp : p.1 = m
      · rw [if_pos hp] at h
        simp at h
      · rw [if_neg hp] at h
        rcases List.mem_cons.mp hv with heq | hmem
        · exact hp (by rw [← heq])
        · exact ih h v hmem

/-- Strengthening the RSSI stored for one MAC leaves the key list of an
association list unchanged. -/
theorem keys_map_strengthen (l : List (String × ℤ)) (m : String) (v : ℤ) :
    (l.map (fun p => if p.1 = m then (p.1, max p.2 v) else p)).map Prod.fst =
      l.map Prod.fst := by
  rw [List.map_map]
  apply List.map_congr_left
  intro p _
  by_cases hp : p.1 = m
  · simp [hp]
  · simp [hp]

/-- C6: one parse pass keeps at most one record per MAC: the collapsed
record list has pairwise distinct MACs; every kept record is one of the
input records and its RSSI is the maximum reported for its MAC; and every
reported MAC keeps some record. -/
theorem parser_collapses_duplicates (records : List (String × ℤ)) :
    ((collapseByMac records).map Prod.fst).Nodup ∧
    (∀ m v, (m, v) ∈ collapseByMac records →
      (m, v) ∈ records ∧ ∀ w, (m, w) ∈ records → w ≤ v) ∧
    (∀ m v, (m, v) ∈ records → ∃ u, (m, u) ∈ collapseByMac records) := by
  induction records with
  | nil =>
      exact ⟨by simp [collapseByMac],
        fun m v hv => absurd hv (by simp [collapseByMac]),
        fun m v hv => absurd hv (List.not_mem_nil _)⟩
  | cons hd rest ih =>
      obtain ⟨m, v⟩ := hd
      obtain ⟨ih1, ih2, ih3⟩ := ih
      by_cases hin : (findMac (collapseByMac rest) m).isSome
      · have hout : collapseByMac ((m, v) :: rest) =
            (collapseByMac rest).map
              (fun p => if p.1 = m then (p.1, max p.2 v) else p) := by
          simp only [collapseByMac, hin, if_true]
        refine ⟨?_, ?_, ?_⟩
        · rw [hout, keys_map_strengthen]
          exact ih1
        · intro m' v' hmem
          rw [hout, List.mem_map] at hmem
          obtain ⟨p, hp, hpe⟩ := hmem
          by_cases hpm : p.1 = m
          · rw [if_pos hpm] at hpe
            injection hpe with he1 he2
            subst he1
            subst he2
            obtain ⟨hmemr, hmax⟩ := ih2 p.1 p.2 hp
            constructor
            · rcases max_cases p.2 v with ⟨hmx, _⟩ | ⟨hmx, _⟩
              · rw [hmx]
                exact List.mem_cons_of_mem _ hmemr
              · rw [hmx, hpm]
                exact List.mem_cons_self _ _
            · intro w hw
              rcases List.mem_cons.mp hw with heq | hmem2
              · injection heq with hh1 hh2
                subst hh2
                exact le_max_right _ _
              · exact le_trans (hmax w hmem2) (le_max_left _ _)
          · rw [if_neg hpm] at hpe
            subst hpe
            obtain ⟨hmemr, hmax⟩ := ih2 m' v' hp
            constructor
            · exact List.mem_cons_of_mem _ hmemr
            · intro w hw
              rcases List.mem_cons.mp hw with heq | hmem2
              · injection heq with hh1 hh2
                exact absurd hh1 hpm
              · exact hmax w hmem2
        · intro m' v' hv'
          rw [hout]
          rcases List.mem_cons.mp hv' with heq | hmem2
          · injection heq with he1 he2
            subst he1
            obtain ⟨u, hu⟩ := Option.isSome_iff_exists.mp hin
            refine ⟨max u v, List.mem_map.mpr ⟨(m', u), findMac_mem _ _ _ hu, ?_⟩⟩
            rw [if_pos rfl]
          · obtain ⟨u, hu⟩ := ih3 m' v' hmem2
            by_cases hm : m' = m
            · exact ⟨max u v, List.mem_map.mpr ⟨(m', u), hu, by rw [if_pos hm]⟩⟩
            · exact ⟨u, List.mem_map.mpr ⟨(m', u), hu, by rw [if_neg hm]⟩⟩
      · rw [Option.not_isSome_iff_eq_none] at hin
        have hout : collapseByMac ((m, v) :: rest) = (m, v) :: collapseByMac rest := by
          simp only [collapseByMac, hin, Option.isSome_none, Bool.false_eq_true,
            if_false]
        have habs : ∀ w, (m, w) ∉ collapseByMac rest :=
          findMac_none_not_mem _ _ hin
        have hrest : ∀ w, (m, w) ∉ rest := by
          intro w hw
          obtain ⟨u, hu⟩ := ih3 m w hw
          exact habs u hu
        refine ⟨?_, ?_, ?_⟩
        · rw [hout, List.map_cons]
          refine List.Nodup.cons ?_ ih1
          intro hmm
          rw [List.mem_map] at hmm
          obtain ⟨p, hp, hpe⟩ := hmm
          have hpe' : p.1 = m := hpe
          refine habs p.2 ?_
          rw [← hpe']
          exact hp
        · intro m' v' hmem
          rw [hout] at hmem
          rcases List.mem_cons.mp hmem with heq | hmem2
          · injection heq with he1 he2
            subst he1
            subst he2
            constructor
            · exact List.mem_cons_self _ _
            · intro w hw
              rcases List.mem_cons.mp hw with heq2 | hmem3
              · injection heq2 with hh1 hh2
                exact le_of_eq hh2
              · exact absurd hmem3 (hrest w)
          · obtain ⟨hmemr, hmax⟩ := ih2 m' v' hmem2
            have hm' : m' ≠ m := by
              intro hmeq
              subst hmeq
              exact habs v' hmem2
            constructor
            · exact List.mem_cons_of_mem _ hmemr
            · intro w hw
              rcases List.mem_cons.mp hw with heq2 | hmem3
              · injection heq2 with hh1 hh2
                exact absurd hh1 hm'
              · exact hmax w hmem3
        · intro m' v' hv'
          rw [hout]
          rcases List.mem_cons.mp hv' with heq | hmem2
          · injection heq with he1 he2
            subst he1
            exact ⟨v, List.mem_cons_self _ _⟩
          · obtain ⟨u, hu⟩ := ih3 m' v' hmem2
            exact ⟨u, List.mem_cons_of_mem _ hu⟩

/-- Witness for `parser_collapses_duplicates`: three records, two for the
same MAC; the kept record for that MAC is in the input and dominates the
RSSI of the duplicate line. -/
theorem parser_collapses_duplicates_witness :
    ("aa:bb:cc:dd:ee:ff", (-60 : ℤ)) ∈
      collapseByMac [("aa:bb:cc:dd:ee:ff", -70), ("aa:bb:cc:dd:ee:ff", -60),
        ("11:22:33:44:55:66", -80)] ∧ (-70 : ℤ) ≤ -60 :=
  ⟨by decide,
    ((parser_collapses_duplicates
      [("aa:bb:cc:dd:ee:ff", -70), ("aa:bb:cc:dd:ee:ff", -60),
        ("11:22:33:44:55:66", -80)]).2.1 "aa:bb:cc:dd:ee:ff" (-60)
      (by decide)).2 (-70) (by decide)⟩

/-- An ordered rule table where every predicate fails evaluates to the
default. -/
theorem firstMatch_eq_default (rules : List ((Device → Bool) × Icon)) (dflt : Icon)
    (d : Device) (h : ∀ r ∈ rules, r.1 d = false) :
    firstMatch rules dflt d = dflt := by
  induction rules with
  | nil => rfl
  | cons r rs ih =>
      rw [firstMatch, h r (List.mem_cons_self _ _)]
      simp only [Bool.false_eq_true, if_false]
      exact ih fun q hq => h q (List.mem_cons_of_mem _ hq)

/-- C8: the device-type icon is decided by an ordered list of
(predicate, icon) rules over the hostname, manufacturer and type
strings of the device, evaluated top-down: the branch chain of `getDeviceIcon` equals
first-match evaluation of `deviceIconRules`, and when no rule matches the
generic hard-drive icon is returned. -/
theorem deviceIcon_first_match (d : Device) :
    getDeviceIcon d = firstMatch deviceIconRules Icon.hardDrive d ∧
    ((∀ r ∈ deviceIconRules, r.1 d = false) → getDeviceIcon d = Icon.hardDrive) := by
  have heq : getDeviceIcon d = firstMatch deviceIconRules Icon.hardDrive d := by
    simp only [getDeviceIcon, deviceIconRules, firstMatch]
  exact ⟨heq, fun h => heq.trans (firstMatch_eq_default _ _ _ h)⟩

/-- Witness for `deviceIcon_first_match`: a desktop device matching no rule
gets the generic icon and agrees with the rule table. -/
theorem deviceIcon_first_match_witness :
    getDeviceIcon ⟨"00:11:22:33:44:55", 2, "desktop", none, none, -55⟩ =
        Icon.hardDrive ∧
      getDeviceIcon ⟨"00:11:22:33:44:55", 2, "desktop", none, none, -55⟩ =
        firstMatch deviceIconRules Icon.hardDrive
          ⟨"00:11:22:33:44:55", 2, "desktop", none, none, -55⟩ :=
  ⟨(deviceIcon_first_match ⟨"00:11:22:33:44:55", 2, "desktop", none, none, -55⟩).2
      (by decide),
    (deviceIcon_first_match ⟨"00:11:22:33:44:55", 2, "desktop", none, none, -55⟩).1⟩

/-- C1 counterexample: on the concrete mapping-shaped device-list payload —
the shape the claim says every consumer receives — the Analytics fetch
cycle throws and records nothing, while the array-shaped payload documented
in the README is consumed successfully; a consumer of the endpoint
requires an array. -/
theorem analytics_requires_array_payload :
    Analytics.histPointOfPayload mappingPayload = none ∧
    Analytics.histPointOfPayload arrayPayload = some (1, 2) := by
  refine ⟨rfl, ?_⟩
  norm_num [Analytics.histPointOfPayload, arrayPayload, devicesPayload, jsField,
    findField, Analytics.averageDistance, jsDistance, sampleDevice,
    show "mac_address" ≠ "distance" from by decide]

/-- C1 amended: the DeviceList view renders exactly the entries of an
object-shaped `devices` member (the mapping keyed by MAC), but the
Analytics fetch cycle completes exactly on array-shaped `devices` members
and discards every cycle whose `devices` member is a mapping: the two
consumers disagree on the shape of the endpoint output. -/
theorem devices_member_shapes (fields : List (String × Json)) (elems : List Json) :
    DeviceList.entriesOfPayload (devicesPayload (Json.obj fields)) = fields ∧
    Analytics.histPointOfPayload (devicesPayload (Json.obj fields)) = none ∧
    (Analytics.histPointOfPayload (devicesPayload (Json.arr elems))).isSome = true :=
  ⟨rfl, rfl, rfl⟩

/-- C7 counterexample: none of the five option names the claim lists as
recognized is among the options the settings surface of the code
exchanges. -/
theorem settings_options_differ :
    "scan_interval_seconds" ∉ settingsOptionNames ∧
    "staleness_threshold_seconds" ∉ settingsOptionNames ∧
    "reference_power_dbm" ∉ settingsOptionNames ∧
    "path_loss_exponent" ∉ settingsOptionNames ∧
    "rssi_history_capacity" ∉ settingsOptionNames ∧
    "scan_interval" ∈ settingsOptionNames ∧
    "distance_threshold" ∈ settingsOptionNames := by
  decide

/-- C7 amended: an update proposing an out-of-range value for one of the
options the settings surface recognizes (scan_interval outside 1-60 or
distance_threshold outside 1-50) is rejected at the update boundary and the
configuration in effect remains the prior one, unchanged. -/
theorem updateConfig_rejects_invalid (current proposed : Settings)
    (h : validSettings proposed = false) :
    updateConfig current proposed = (current, false) := by
  unfold updateConfig
  rw [h]
  simp

/-- Witness for `updateConfig_rejects_invalid`: a proposed scan interval of
0 seconds is out of range and leaves the default configuration in effect. -/
theorem updateConfig_rejects_invalid_witness :
    validSettings ⟨0, 10⟩ = false ∧
    updateConfig defaultSettings ⟨0, 10⟩ = (defaultSettings, false) :=
  ⟨by decide, updateConfig_rejects_invalid defaultSettings ⟨0, 10⟩ (by decide)⟩

end WifiTracker
